import Mathlib

/- Verification development for the karmada scheduling environment
   (src/gym-multi-k8s/envs/karmada_scheduling_env.py).

   Conventions of the shallow embedding:
   * Python floats are modelled as exact rationals (so the literal 0.95
     becomes 19/20, 1.15 becomes 23/20, 1.05 becomes 21/20, 1.10 becomes 11/10).
   * numpy arrays indexed by cluster are modelled as functions out of Nat;
     in-place mutation becomes Function.update.
   * The per-instance numpy pseudo-random stream is modelled by explicit draw
     parameters, constrained to the ranges numpy guarantees: a call
     np_random.integers(low, high) yields an integer in [low, high - 1]
     (the high bound is exclusive by default), np_random.uniform(a, b) yields
     a value in [a, b], np_random.exponential yields a nonnegative value.
   * The heapq min-heap of (departure_time, request) pairs is modelled as a
     list kept sorted by ascending key: heappush is ordered insertion (after
     equal keys) and heappop takes the head.  This realises exactly the
     min-extraction behaviour of heapq; tie order among equal departure times
     is not semantically significant. -/

namespace KarmadaEnv

/-- DEFAULT_CLUSTER_TYPES cpu column (index by cluster type id). -/
def tierCpu (t : ℕ) : ℚ := [2, 2, 2, 4, 8].getD t 0

/-- DEFAULT_CLUSTER_TYPES mem column (index by cluster type id). -/
def tierMem (t : ℕ) : ℚ := [2, 4, 8, 16, 32].getD t 0

/-- DEFAULT_CLUSTER_TYPES cost column (index by cluster type id). -/
def tierCost (t : ℕ) : ℚ := [1, 2, 4, 8, 16].getD t 0

/-- NUM_SPREADING_ACTIONS constant from the source. -/
def NUM_SPREADING_ACTIONS : ℕ := 3

/-- FFD spreading-strategy offset from the source. -/
def FFD : ℕ := 0

/-- FFI spreading-strategy offset from the source. -/
def FFI : ℕ := 1

/-- BF1B1 spreading-strategy offset from the source. -/
def BF1B1 : ℕ := 2

/-- MIN_DELAY constant from the source (1 ms). -/
def MIN_DELAY : ℚ := 1

/-- MAX_DELAY constant from the source (1000 ms). -/
def MAX_DELAY : ℚ := 1000

/-- MAX_COST constant from the source. -/
def MAX_COST : ℚ := 16

/-- MIN_COST constant from the source. -/
def MIN_COST : ℚ := 1

/-- The reward objective selected at construction (reward_function field);
the source compares string identifiers NAIVE / MULTI / LATENCY / COST. -/
inductive RewardFn where
  | naive
  | multi
  | latency
  | cost
deriving DecidableEq

/-- DeploymentRequest record (envs.utils): immutable shape plus the mutable
placement outcome written by take_action.  split_clusters is the per-cluster
replica distribution used when is_deployment_split is set. -/
structure DeploymentRequest where
  num_replicas : ℕ
  cpu_request : ℚ
  memory_request : ℚ
  latency_threshold : ℚ
  arrival_time : ℚ
  departure_time : ℚ
  deployed_cluster : ℕ
  split_clusters : ℕ → ℤ
  is_deployment_split : Bool
  expected_latency : ℚ
  expected_cost : ℚ

/-- Default blueprint used only as the List.getD fallback when indexing the
deployment catalog; the source always indexes inside the list. -/
def defaultRequest : DeploymentRequest where
  num_replicas := 1
  cpu_request := 1
  memory_request := 1
  latency_threshold := 1
  arrival_time := 0
  departure_time := 0
  deployed_cluster := 0
  split_clusters := fun _ => 0
  is_deployment_split := false
  expected_latency := 0
  expected_cost := 0

/-- The mutable state of KarmadaSchedulingEnv, restricted to the fields the
simulation core reads or writes (logging, csv export and the gym spaces are
omitted).  Arrays are functions out of Nat; only indices below num_clusters
are meaningful. -/
structure EnvState where
  num_clusters : ℕ
  episode_length : ℕ
  min_replicas : ℕ
  max_replicas : ℕ
  reward_function : RewardFn
  latency_weight : ℚ
  cost_weight : ℚ
  gini_weight : ℚ
  cpu_capacity : ℕ → ℚ
  memory_capacity : ℕ → ℚ
  allocated_cpu : ℕ → ℚ
  allocated_memory : ℕ → ℚ
  free_cpu : ℕ → ℚ
  free_memory : ℕ → ℚ
  cluster_type : ℕ → ℕ
  latency_matrix : ℕ → ℕ → ℚ
  latency : ℕ → ℚ
  split_number_replicas : ℕ → ℚ
  running_requests : List (ℚ × DeploymentRequest)
  current_time : ℚ
  dt : ℚ
  deployment_request : DeploymentRequest
  penalty : Bool
  episode_over : Bool
  current_step : ℕ
  accepted_requests : ℕ
  ep_accepted_requests : ℕ
  offered_requests : ℕ
  deploy_all : ℕ
  deploy_ffd : ℕ
  deploy_ffi : ℕ
  deploy_bf1b1 : ℕ
  avg_load_served : ℕ → ℚ
  avg_latency : List ℚ
  avg_cost : List ℚ
  avg_cpu_usage : List ℚ
  total_reward : ℚ

/-- heapq.heappush on the (departure_time, request) heap, modelled as ordered
insertion into the ascending-by-key list (after equal keys). -/
def heapPush (l : List (ℚ × DeploymentRequest)) (x : ℚ × DeploymentRequest) :
    List (ℚ × DeploymentRequest) :=
  match l with
  | [] => [x]
  | y :: ys => if y.1 ≤ x.1 then y :: heapPush ys x else x :: y :: ys

/-- enqueue_request: heappush(self.running_requests, (request.departure_time, request)). -/
def enqueue_request (s : EnvState) (request : DeploymentRequest) : EnvState :=
  { s with running_requests := heapPush s.running_requests (request.departure_time, request) }

/-- The clamp max(min(x * factor, MAX_DELAY), MIN_DELAY) applied to every
off-diagonal entry by increase_latency / decrease_latency.  The subsequent
source guard (if the entry is 0, set it to 1.0) is dead code because the
clamp already yields a value that is at least MIN_DELAY = 1. -/
def clampLat (x : ℚ) : ℚ := max (min x MAX_DELAY) MIN_DELAY

/-- Mean of row c of the latency matrix over the num_clusters columns
(statistics.mean of the row). -/
def rowMean (nc : ℕ) (M : ℕ → ℕ → ℚ) (c : ℕ) : ℚ :=
  ((List.range nc).map (M c)).sum / (nc : ℚ)

/-- The matrix transformation shared by increase_latency (f multiplies by the
factor) and decrease_latency (f divides by the factor): row n gets
clampLat (f entry) off the diagonal and 0 on it, and column n mirrors row n. -/
def updateLatencyMatrix (nc n : ℕ) (f : ℚ → ℚ) (M : ℕ → ℕ → ℚ) : ℕ → ℕ → ℚ :=
  fun i j =>
    if i = n then
      if j = n then 0 else if j < nc then clampLat (f (M n j)) else M i j
    else if j = n ∧ i < nc then clampLat (f (M n i))
    else M i j

/-- increase_latency(n, factor): scale row/column n of the latency matrix by
the factor with the [MIN_DELAY, MAX_DELAY] clamp, keep the diagonal at 0, and
recompute the per-cluster mean latencies. -/
def increase_latency (s : EnvState) (n : ℕ) (factor : ℚ) : EnvState :=
  let M := updateLatencyMatrix s.num_clusters n (fun x => x * factor) s.latency_matrix
  { s with latency_matrix := M,
           latency := fun c => if c < s.num_clusters then rowMean s.num_clusters M c else s.latency c }

/-- decrease_latency(n, factor): as increase_latency but dividing by the factor. -/
def decrease_latency (s : EnvState) (n : ℕ) (factor : ℚ) : EnvState :=
  let M := updateLatencyMatrix s.num_clusters n (fun x => x / factor) s.latency_matrix
  { s with latency_matrix := M,
           latency := fun c => if c < s.num_clusters then rowMean s.num_clusters M c else s.latency c }

/-- check_if_cluster_is_full_after_full_deployment: the cluster is full when
committing the whole pending request would push allocated cpu or memory
strictly above 95 percent of capacity. -/
def check_if_cluster_is_full_after_full_deployment (s : EnvState) (action : ℕ) : Bool :=
  let total_cpu := (s.deployment_request.num_replicas : ℚ) * s.deployment_request.cpu_request
  let total_memory := (s.deployment_request.num_replicas : ℚ) * s.deployment_request.memory_request
  decide (19/20 * s.cpu_capacity action < s.allocated_cpu action + total_cpu) ||
    decide (19/20 * s.memory_capacity action < s.allocated_memory action + total_memory)

/-- check_if_clusters_are_full_after_split_deployment: some cluster would be
pushed strictly above 95 percent of capacity by its share of the split. -/
def check_if_clusters_are_full_after_split_deployment (s : EnvState) (div : ℕ → ℤ) : Bool :=
  (List.range s.num_clusters).any fun d =>
    let total_cpu := s.deployment_request.cpu_request * (div d : ℚ)
    let total_memory := s.deployment_request.memory_request * (div d : ℚ)
    decide (19/20 * s.cpu_capacity d < s.allocated_cpu d + total_cpu) ||
      decide (19/20 * s.memory_capacity d < s.allocated_memory d + total_memory)

/-- check_if_cluster_is_really_full: every cluster fails the whole-placement
feasibility check for the pending request. -/
def check_if_cluster_is_really_full (s : EnvState) : Bool :=
  (List.range s.num_clusters).all fun i => check_if_cluster_is_full_after_full_deployment s i

/-- action_masks: whole-placement action i is valid iff cluster i is not full
for the pending request; the three spreading strategies and reject are always
valid. -/
def action_masks (s : EnvState) : List Bool :=
  ((List.range s.num_clusters).map fun i => !check_if_cluster_is_full_after_full_deployment s i)
    ++ [true, true, true, true]

/-- Stable insertion for descending sort by key: the new element goes after
every already placed element whose key is at least as large, matching Python
sorted(..., reverse=True) which is stable. -/
def insertDesc (key : ℕ → ℚ) (a : ℕ) : List ℕ → List ℕ
  | [] => [a]
  | b :: bs => if key a ≤ key b then b :: insertDesc key a bs else a :: b :: bs

/-- Stable descending sort of cluster indices by key (sort_dict_by_value with
reverse=True over the index-to-free-cpu dictionary; ties keep index order). -/
def sortDescBy (key : ℕ → ℚ) (l : List ℕ) : List ℕ :=
  l.foldl (fun acc a => insertDesc key a acc) []

/-- Stable insertion for ascending sort by key, matching Python sorted which
is stable. -/
def insertAsc (key : ℕ → ℚ) (a : ℕ) : List ℕ → List ℕ
  | [] => [a]
  | b :: bs => if key b ≤ key a then b :: insertAsc key a bs else a :: b :: bs

/-- Stable ascending sort of cluster indices by key (sorted(range(n), key=...)). -/
def sortAscBy (key : ℕ → ℚ) (l : List ℕ) : List ℕ :=
  l.foldl (fun acc a => insertAsc key a acc) []

/-- Minimum of a list of rationals (Python min over the nonempty
split_number_replicas array; 0 for the empty list, which never occurs). -/
def listMin : List ℚ → ℚ
  | [] => 0
  | [a] => a
  | a :: b :: rest => min a (listMin (b :: rest))

/-- First distribution pass of first_fit_decreasing_heuristic: walk the
clusters in descending free-cpu order; give a cluster min_factor replicas when
min_factor replicas are strictly below its free cpu and memory and strictly
fewer than the remaining replicas, otherwise a single replica when one replica
strictly fits; stop when no replicas remain. -/
def ffdLoop1 (cpu_req mem_req : ℚ) (free_cpu free_mem : ℕ → ℚ) (mf : ℤ) :
    List ℕ → (ℕ → ℤ) → ℤ → (ℕ → ℤ) × ℤ
  | [], dist, rem => (dist, rem)
  | n :: rest, dist, rem =>
    if rem = 0 then (dist, rem)
    else if 0 < rem ∧ mf < rem ∧ cpu_req * (mf : ℚ) < free_cpu n ∧ mem_req * (mf : ℚ) < free_mem n then
      ffdLoop1 cpu_req mem_req free_cpu free_mem mf rest
        (Function.update dist n (dist n + mf)) (rem - mf)
    else if 0 < rem ∧ cpu_req < free_cpu n ∧ mem_req < free_mem n then
      ffdLoop1 cpu_req mem_req free_cpu free_mem mf rest
        (Function.update dist n (dist n + 1)) (rem - 1)
    else ffdLoop1 cpu_req mem_req free_cpu free_mem mf rest dist rem

/-- Second best-effort pass of first_fit_decreasing_heuristic: one replica at
a time in cluster-index order, to any cluster whose free cpu and memory are
strictly above one replica's demand. -/
def ffdLoop2 (cpu_req mem_req : ℚ) (free_cpu free_mem : ℕ → ℚ) :
    List ℕ → (ℕ → ℤ) → ℤ → (ℕ → ℤ) × ℤ
  | [], dist, rem => (dist, rem)
  | n :: rest, dist, rem =>
    if rem = 0 then (dist, rem)
    else if cpu_req < free_cpu n ∧ mem_req < free_mem n then
      ffdLoop2 cpu_req mem_req free_cpu free_mem rest
        (Function.update dist n (dist n + 1)) (rem - 1)
    else ffdLoop2 cpu_req mem_req free_cpu free_mem rest dist rem

/-- first_fit_decreasing_heuristic.  Returns the per-cluster distribution and
the per-cluster split factors (the source stores the factors into the state
field split_number_replicas before taking their minimum).  min_factor is the
ceiling of the smallest split factor, clamped to num_replicas - 1 when it
would consume the whole request. -/
def first_fit_decreasing_heuristic (num_replicas : ℕ) (cpu_req mem_req : ℚ) (nc : ℕ)
    (free_cpu free_mem : ℕ → ℚ) : (ℕ → ℤ) × (ℕ → ℚ) :=
  let factors : ℕ → ℚ := fun n => min (free_cpu n / cpu_req) (free_mem n / mem_req)
  let mfRaw : ℤ := ⌈listMin ((List.range nc).map factors)⌉
  let mf : ℤ := if (num_replicas : ℤ) ≤ mfRaw then (num_replicas : ℤ) - 1 else mfRaw
  let order := sortDescBy free_cpu (List.range nc)
  let step1 := ffdLoop1 cpu_req mem_req free_cpu free_mem mf order (fun _ => 0) (num_replicas : ℤ)
  let step2 := ffdLoop2 cpu_req mem_req free_cpu free_mem (List.range nc) step1.1 step1.2
  (step2.1, factors)

/-- Inner scan of best_fit_heuristic_one_by_one for one replica: over the
ascending-free-cpu cluster order, among clusters whose free cpu and memory
cover one replica (non-strict), keep the one with the strictly smallest
leftover slack; the accumulator replaces the float-infinity sentinel. -/
def bf1b1Choose (cpu_req mem_req : ℚ) (free_cpu free_mem : ℕ → ℚ) :
    List ℕ → Option (ℕ × ℚ) → Option (ℕ × ℚ)
  | [], best => best
  | i :: rest, best =>
    if cpu_req ≤ free_cpu i ∧ mem_req ≤ free_mem i then
      let space := free_cpu i - cpu_req + (free_mem i - mem_req)
      match best with
      | none => bf1b1Choose cpu_req mem_req free_cpu free_mem rest (some (i, space))
      | some (b, bs) =>
        if space < bs then bf1b1Choose cpu_req mem_req free_cpu free_mem rest (some (i, space))
        else bf1b1Choose cpu_req mem_req free_cpu free_mem rest (some (b, bs))
    else bf1b1Choose cpu_req mem_req free_cpu free_mem rest best

/-- Replica loop of best_fit_heuristic_one_by_one: one replica per iteration;
when a best-fit cluster exists, record the replica there and deduct its demand
from the free-resource view used by the remaining iterations.  The function
returns that final free-resource view because the Python heuristic mutates the
caller's free_cpu / free_mem arrays in place. -/
def bf1b1Go (cpu_req mem_req : ℚ) (nc : ℕ) :
    ℕ → (ℕ → ℤ) → (ℕ → ℚ) → (ℕ → ℚ) → (ℕ → ℤ) × (ℕ → ℚ) × (ℕ → ℚ)
  | 0, dist, fc, fm => (dist, fc, fm)
  | k + 1, dist, fc, fm =>
    match bf1b1Choose cpu_req mem_req fc fm (sortAscBy fc (List.range nc)) none with
    | none => bf1b1Go cpu_req mem_req nc k dist fc fm
    | some (b, _) =>
      bf1b1Go cpu_req mem_req nc k (Function.update dist b (dist b + 1))
        (Function.update fc b (fc b - cpu_req)) (Function.update fm b (fm b - mem_req))

/-- best_fit_heuristic_one_by_one.  Returns the distribution together with
the mutated free cpu / memory views (the source updates the arrays it was
passed, which are the environment's own free_cpu / free_memory). -/
def best_fit_heuristic_one_by_one (num_replicas : ℕ) (cpu_req mem_req : ℚ) (nc : ℕ)
    (free_cpu free_mem : ℕ → ℚ) : (ℕ → ℤ) × (ℕ → ℚ) × (ℕ → ℚ) :=
  bf1b1Go cpu_req mem_req nc num_replicas (fun _ => 0) free_cpu free_mem

/-- One iteration of the commit loop shared by the three split branches of
take_action (the source repeats this block verbatim in each branch): add the
cluster's share to the allocation ledger, accumulate the running latency /
cost / cpu-usage averages, recompute free resources, bump the latency of the
cluster, and record the served load.  The latency term is read before this
cluster's increase but after the increases of the previously visited
clusters. -/
def splitCommitStep (div : ℕ → ℤ) (cpu_req mem_req : ℚ)
    (acc : EnvState × ℚ × ℚ × ℚ) (d : ℕ) : EnvState × ℚ × ℚ × ℚ :=
  let s := acc.1
  let avg_l := acc.2.1
  let avg_c := acc.2.2.1
  let avg_cpu := acc.2.2.2
  let ac := Function.update s.allocated_cpu d (s.allocated_cpu d + cpu_req * (div d : ℚ))
  let am := Function.update s.allocated_memory d (s.allocated_memory d + mem_req * (div d : ℚ))
  let avg_cpu := avg_cpu + 100 * (ac d / s.cpu_capacity d)
  let fc := Function.update s.free_cpu d (s.cpu_capacity d - ac d)
  let fm := Function.update s.free_memory d (s.memory_capacity d - am d)
  let avg_l := avg_l + s.latency d * (div d : ℚ)
  let s := { s with allocated_cpu := ac, allocated_memory := am, free_cpu := fc, free_memory := fm }
  let s := increase_latency s d (21/20)
  let avg_c := avg_c + tierCost (s.cluster_type d) * (div d : ℚ)
  let s := { s with avg_load_served := Function.update s.avg_load_served d (s.avg_load_served d + (div d : ℚ)) }
  (s, avg_l, avg_c, avg_cpu)

/-- The accepted-split tail shared by the three split branches of take_action:
run the commit loop over every cluster index, average the accumulated latency
/ cost / cpu terms over the replica count, append them to the episode lists,
freeze the outcome onto the request (split_clusters, is_deployment_split,
expected_latency, expected_cost) and enqueue it.  The request is enqueued by
reference in Python, so the heap entry carries the frozen values. -/
def splitCommit (s : EnvState) (div : ℕ → ℤ) : EnvState :=
  let dr := s.deployment_request
  let r := (List.range s.num_clusters).foldl
    (splitCommitStep div dr.cpu_request dr.memory_request) (s, 0, 0, 0)
  let s1 := r.1
  let avg_l := r.2.1 / (dr.num_replicas : ℚ)
  let avg_c := r.2.2.1 / (dr.num_replicas : ℚ)
  let avg_cpu := r.2.2.2 / (dr.num_replicas : ℚ)
  let dr1 := { dr with split_clusters := div, is_deployment_split := true,
                       expected_latency := avg_l, expected_cost := avg_c }
  let s2 := { s1 with avg_latency := s1.avg_latency ++ [avg_l],
                      avg_cost := s1.avg_cost ++ [avg_c],
                      avg_cpu_usage := s1.avg_cpu_usage ++ [avg_cpu],
                      deployment_request := dr1 }
  enqueue_request s2 dr1

/-- Whole-placement branch of take_action (action below num_clusters): block
with a penalty when the cluster would be full, otherwise commit the whole
request to the cluster, bump its latency by 1.15, record the averages and
enqueue the request with its frozen expected latency / cost. -/
def wholeBranch (s : EnvState) (action : ℕ) : EnvState :=
  if check_if_cluster_is_full_after_full_deployment s action then { s with penalty := true }
  else
    let dr := s.deployment_request
    let total_cpu := dr.cpu_request * (dr.num_replicas : ℚ)
    let total_mem := dr.memory_request * (dr.num_replicas : ℚ)
    let ac := Function.update s.allocated_cpu action (s.allocated_cpu action + total_cpu)
    let am := Function.update s.allocated_memory action (s.allocated_memory action + total_mem)
    let s1 := { s with accepted_requests := s.accepted_requests + 1,
                       ep_accepted_requests := s.ep_accepted_requests + 1,
                       deploy_all := s.deploy_all + 1,
                       penalty := false,
                       allocated_cpu := ac,
                       allocated_memory := am,
                       avg_cpu_usage := s.avg_cpu_usage ++ [100 * (ac action / s.cpu_capacity action)],
                       avg_load_served := Function.update s.avg_load_served action
                         (s.avg_load_served action + (dr.num_replicas : ℚ)),
                       free_cpu := Function.update s.free_cpu action (s.cpu_capacity action - ac action),
                       free_memory := Function.update s.free_memory action (s.memory_capacity action - am action) }
    let s2 := increase_latency s1 action (23/20)
    let dr1 := { dr with deployed_cluster := action,
                         expected_latency := s2.latency action,
                         expected_cost := tierCost (s2.cluster_type action) }
    let s3 := { s2 with avg_latency := s2.avg_latency ++ [s2.latency action],
                        avg_cost := s2.avg_cost ++ [tierCost (s2.cluster_type action)],
                        deployment_request := dr1 }
    enqueue_request s3 dr1

/-- FFD branch of take_action: blocked for a single-replica request; otherwise
run first_fit_decreasing_heuristic (which also writes the split factors into
split_number_replicas), validate the distribution against the 95 percent
threshold, and either penalize or commit, counting the acceptance in
deploy_ffd. -/
def ffdBranch (s : EnvState) : EnvState :=
  if s.deployment_request.num_replicas = 1 then { s with penalty := true }
  else
    let r := first_fit_decreasing_heuristic s.deployment_request.num_replicas
      s.deployment_request.cpu_request s.deployment_request.memory_request
      s.num_clusters s.free_cpu s.free_memory
    let s := { s with split_number_replicas :=
                 fun n => if n < s.num_clusters then r.2 n else s.split_number_replicas n }
    if check_if_clusters_are_full_after_split_deployment s r.1 then { s with penalty := true }
    else
      let s := { s with penalty := false,
                        accepted_requests := s.accepted_requests + 1,
                        ep_accepted_requests := s.ep_accepted_requests + 1,
                        deploy_ffd := s.deploy_ffd + 1 }
      splitCommit s r.1

/-- FFI branch of take_action: textually identical to the FFD branch in the
source (it calls the same first_fit_decreasing_heuristic with the same
arguments) except that the acceptance is counted in deploy_ffi. -/
def ffiBranch (s : EnvState) : EnvState :=
  if s.deployment_request.num_replicas = 1 then { s with penalty := true }
  else
    let r := first_fit_decreasing_heuristic s.deployment_request.num_replicas
      s.deployment_request.cpu_request s.deployment_request.memory_request
      s.num_clusters s.free_cpu s.free_memory
    let s := { s with split_number_replicas :=
                 fun n => if n < s.num_clusters then r.2 n else s.split_number_replicas n }
    if check_if_clusters_are_full_after_split_deployment s r.1 then { s with penalty := true }
    else
      let s := { s with penalty := false,
                        accepted_requests := s.accepted_requests + 1,
                        ep_accepted_requests := s.ep_accepted_requests + 1,
                        deploy_ffi := s.deploy_ffi + 1 }
      splitCommit s r.1

/-- BF1B1 branch of take_action: blocked for a single-replica request;
otherwise run best_fit_heuristic_one_by_one, whose in-place updates of the
arrays it was handed land in the environment's free_cpu / free_memory before
the validation check runs, then validate and either penalize (leaving the
mutated free views in place) or commit, counting the acceptance in
deploy_bf1b1. -/
def bf1b1Branch (s : EnvState) : EnvState :=
  if s.deployment_request.num_replicas = 1 then { s with penalty := true }
  else
    let r := best_fit_heuristic_one_by_one s.deployment_request.num_replicas
      s.deployment_request.cpu_request s.deployment_request.memory_request
      s.num_clusters s.free_cpu s.free_memory
    let s := { s with free_cpu := r.2.1, free_memory := r.2.2 }
    if check_if_clusters_are_full_after_split_deployment s r.1 then { s with penalty := true }
    else
      let s := { s with penalty := false,
                        accepted_requests := s.accepted_requests + 1,
                        ep_accepted_requests := s.ep_accepted_requests + 1,
                        deploy_bf1b1 := s.deploy_bf1b1 + 1 }
      splitCommit s r.1

/-- Preamble of take_action: bump the step counter, ending the episode when
it reaches episode_length. -/
def stepBump (s0 : EnvState) : EnvState :=
  { s0 with current_step := s0.current_step + 1,
            episode_over := if s0.current_step + 1 = s0.episode_length then true
                            else s0.episode_over }

/-- take_action: bump the step counter, then dispatch on the action index:
whole placement for actions below num_clusters, then FFD / FFI / BF1B1
splits, then reject (a bare penalty); an unrecognized index only logs and
leaves the rest of the state alone. -/
def take_action (s0 : EnvState) (action : ℕ) : EnvState :=
  let s := stepBump s0
  if action < s.num_clusters then wholeBranch s action
  else if action = s.num_clusters + FFD then ffdBranch s
  else if action = s.num_clusters + FFI then ffiBranch s
  else if action = s.num_clusters + BF1B1 then bf1b1Branch s
  else if action = s.num_clusters + NUM_SPREADING_ACTIONS then { s with penalty := true }
  else s

/-- One iteration of the split-release loop of dequeue_request.  The source
computes the released amounts from self.deployment_request — the pending
request — rather than from the popped request, so the pending request `pend`
is the first argument here (lines 1399-1400 of the source); only
is_deployment_split and deployed_cluster are read off the popped request. -/
def dequeueSplitStep (pend : DeploymentRequest) (s : EnvState) (d : ℕ) : EnvState :=
  let total_cpu := pend.cpu_request * (pend.split_clusters d : ℚ)
  let total_memory := pend.memory_request * (pend.split_clusters d : ℚ)
  let ac := Function.update s.allocated_cpu d (s.allocated_cpu d - total_cpu)
  let am := Function.update s.allocated_memory d (s.allocated_memory d - total_memory)
  let s1 := { s with allocated_cpu := ac, allocated_memory := am,
                     free_cpu := Function.update s.free_cpu d (s.cpu_capacity d - ac d),
                     free_memory := Function.update s.free_memory d (s.memory_capacity d - am d) }
  if total_cpu ≠ 0 then decrease_latency s1 d (11/10) else s1

/-- dequeue_request: pop the earliest-departing entry off the heap and release
resources.  Faithful to the source, which reads the released amounts from
self.deployment_request (the pending request) instead of the popped request:
the popped request only selects the branch (is_deployment_split) and, for a
whole placement, the cluster (deployed_cluster).  Popping an empty heap is a
fatal error in Python; the callers guard for emptiness, so the empty case
here returns the state unchanged. -/
def dequeue_request (s : EnvState) : EnvState :=
  match s.running_requests with
  | [] => s
  | (_, dr) :: rest =>
    let s1 := { s with running_requests := rest }
    let pend := s1.deployment_request
    if dr.is_deployment_split then
      (List.range s1.num_clusters).foldl (dequeueSplitStep pend) s1
    else
      let n := dr.deployed_cluster
      let total_cpu := (pend.num_replicas : ℚ) * pend.cpu_request
      let total_memory := (pend.num_replicas : ℚ) * pend.memory_request
      let ac := Function.update s1.allocated_cpu n (s1.allocated_cpu n - total_cpu)
      let am := Function.update s1.allocated_memory n (s1.allocated_memory n - total_memory)
      let s2 := { s1 with allocated_cpu := ac, allocated_memory := am,
                          free_cpu := Function.update s1.free_cpu n (s1.cpu_capacity n - ac n),
                          free_memory := Function.update s1.free_memory n (s1.memory_capacity n - am n) }
      decrease_latency s2 n (23/20)

/-- The drain loop of next_request with an explicit iteration bound: while the
heap is nonempty and its earliest departure is strictly before the arrival
time, dequeue.  Each dequeue removes exactly one heap entry, so running the
loop with fuel equal to the initial heap length is the whole while loop. -/
def drainDueByFuel : ℕ → EnvState → ℚ → EnvState
  | 0, s, _ => s
  | fuel + 1, s, arrival =>
    match s.running_requests with
    | [] => s
    | (t, _) :: _ => if t < arrival then drainDueByFuel fuel (dequeue_request s) arrival else s

/-- Departure drain of next_request (spec name drainDueBy). -/
def drainDueBy (s : EnvState) (arrival : ℚ) : EnvState :=
  drainDueByFuel s.running_requests.length s arrival

/-- Modelled from the spec: get_c2e_deployment_list (envs/utils, not under
src/) returns the catalog of deployment blueprints, consumed as an opaque
list of request records; here the catalog is an explicit parameter. -/
def deployment_generator (catalog : List DeploymentRequest) (nDraw rDraw minR maxR : ℕ) :
    DeploymentRequest :=
  let d := catalog.getD (if nDraw = 0 then catalog.length - 1 else nDraw - 1) defaultRequest
  { d with num_replicas := if minR = maxR then minR else rDraw }

/-- next_request: draw the inter-arrival gap and duration, advance the clock
to the new arrival time, drain every admitted request whose departure is
strictly before it, and generate the pending request.  nDraw is the catalog
index draw from integers(0, len) and rDraw the replica draw from
integers(min_replicas, max_replicas); the exponential draws ia and dur are
passed in directly. -/
def next_request (s : EnvState) (ia dur : ℚ) (catalog : List DeploymentRequest)
    (nDraw rDraw : ℕ) : EnvState :=
  let arrival := s.current_time + ia
  let departure := arrival + dur
  let s1 := { s with dt := departure - arrival, current_time := arrival }
  let s2 := drainDueBy s1 arrival
  { s2 with deployment_request := deployment_generator catalog nDraw rDraw s.min_replicas s.max_replicas }

/-- Latency matrix produced by the double loop in __init__ and reset: 0 on
the diagonal and an independent draw from integers(MIN_DELAY, MAX_DELAY) for
every ordered off-diagonal pair.  The draw stream is the function draw, whose
admissible values lie in [1, 999] (the high bound of integers is
exclusive). -/
def initLatencyMatrix (_nc : ℕ) (draw : ℕ → ℕ → ℚ) : ℕ → ℕ → ℚ :=
  fun i j => if i = j then 0 else draw i j

/-- reset: redraw the latency matrix, the cluster tiers and capacities, and
the initial allocations, derive free resources, and zero the episode
counters and averages.  The draws are explicit: tierDraw from
integers(0, NUM_CLUSTER_TYPES), latDraw from integers(1, 1000), and the
initial allocations from uniform(0, 0.2).  Fields the source reset does not
touch — notably running_requests, current_time and the pending
deployment_request — are left untouched here too. -/
def reset (s : EnvState) (tierDraw : ℕ → ℕ) (latDraw : ℕ → ℕ → ℚ)
    (allocCpuDraw allocMemDraw : ℕ → ℚ) : EnvState :=
  let nc := s.num_clusters
  let latM := initLatencyMatrix nc latDraw
  let cc : ℕ → ℚ := fun c => if c < nc then tierCpu (tierDraw c) else s.cpu_capacity c
  let mc : ℕ → ℚ := fun c => if c < nc then tierMem (tierDraw c) else s.memory_capacity c
  let acd : ℕ → ℚ := fun c => if c < nc then allocCpuDraw c else s.allocated_cpu c
  let amd : ℕ → ℚ := fun c => if c < nc then allocMemDraw c else s.allocated_memory c
  { s with current_step := 0,
           episode_over := false,
           total_reward := 0,
           ep_accepted_requests := 0,
           penalty := false,
           avg_latency := [],
           avg_cost := [],
           avg_cpu_usage := [],
           avg_load_served := fun _ => 0,
           latency_matrix := latM,
           latency := fun c => if c < nc then rowMean nc latM c else s.latency c,
           cluster_type := fun c => if c < nc then tierDraw c else s.cluster_type c,
           cpu_capacity := cc,
           memory_capacity := mc,
           allocated_cpu := acd,
           allocated_memory := amd,
           free_cpu := fun n => if n < nc then cc n - acd n else s.free_cpu n,
           free_memory := fun n => if n < nc then mc n - amd n else s.free_memory n,
           deploy_all := 0,
           deploy_ffd := 0,
           deploy_ffi := 0,
           deploy_bf1b1 := 0,
           split_number_replicas := fun _ => 0 }

/-- Modelled from the spec: calculate_gini_coefficient (envs/utils, not under
src/) computes the mean-absolute-difference Gini over the load vector,
defined as 0 when all loads are zero. -/
def calculate_gini_coefficient (xs : List ℚ) : ℚ :=
  if xs.all (fun a => a = 0) then 0
  else (xs.map (fun a => (xs.map (fun b => |a - b|)).sum)).sum / (2 * (xs.length : ℚ) * xs.sum)

/-- Modelled from the spec: normalize (envs/utils, not under src/) maps x
linearly from [lo, hi] to [0, 1]. -/
def normalize (x lo hi : ℚ) : ℚ := (x - lo) / (hi - lo)

/-- Two-decimal rounding used by the cost reward branch (the Python code
formats the value with two decimals and reads it back as a float). -/
def round2 (x : ℚ) : ℚ := (round (100 * x) : ℚ) / 100

/-- get_reward: dispatch on the configured objective.  All four objectives
return 1 on a penalized step when no cluster could have hosted the whole
pending request, except cost which then returns MAX_COST - MIN_COST; a
penalized step with resources available yields -1.  An admitted step yields 1
under naive, a threshold comparison under latency, MAX_COST minus the actual
cost under cost, and the weighted latency / cost / Gini combination under
multi. -/
def get_reward (s : EnvState) : ℚ :=
  match s.reward_function with
  | .naive =>
    if s.penalty then
      if !check_if_cluster_is_really_full s then -1 else 1
    else 1
  | .multi =>
    if s.penalty then
      if !check_if_cluster_is_really_full s then -1 else 1
    else
      let lc : ℚ × ℚ :=
        if !s.deployment_request.is_deployment_split then
          (s.latency s.deployment_request.deployed_cluster,
           tierCost (s.cluster_type s.deployment_request.deployed_cluster))
        else (s.deployment_request.expected_latency, s.deployment_request.expected_cost)
      let gini := calculate_gini_coefficient ((List.range s.num_clusters).map s.avg_load_served)
      let lat := normalize lc.1 MIN_DELAY MAX_DELAY
      let cost := normalize lc.2 MIN_COST MAX_COST
      s.latency_weight * (1 - lat) + s.cost_weight * (1 - cost) + s.gini_weight * (1 - gini)
  | .latency =>
    if s.penalty then
      if !check_if_cluster_is_really_full s then -1 else 1
    else
      let t := s.deployment_request.latency_threshold
      let lat :=
        if !s.deployment_request.is_deployment_split then
          s.latency s.deployment_request.deployed_cluster
        else s.deployment_request.expected_latency
      if lat < t then 1 else -1
  | .cost =>
    if s.penalty then
      if !check_if_cluster_is_really_full s then -1 else MAX_COST - MIN_COST
    else
      let cost :=
        if !s.deployment_request.is_deployment_split then
          tierCost (s.cluster_type s.deployment_request.deployed_cluster)
        else s.deployment_request.expected_cost
      round2 (MAX_COST - cost)

/-- The spec's canFit predicate (section 4.1), written from the spec's words:
allocating the whole pending request onto cluster k keeps both cpu and memory
at or below 95 percent of that cluster's capacity. -/
def wholeFeasible (s : EnvState) (k : ℕ) : Prop :=
  s.allocated_cpu k + (s.deployment_request.num_replicas : ℚ) * s.deployment_request.cpu_request
      ≤ 19/20 * s.cpu_capacity k ∧
  s.allocated_memory k + (s.deployment_request.num_replicas : ℚ) * s.deployment_request.memory_request
      ≤ 19/20 * s.memory_capacity k

instance (s : EnvState) (k : ℕ) : Decidable (wholeFeasible s k) := by
  unfold wholeFeasible
  infer_instance

theorem check_full_eq_false_iff (s : EnvState) (k : ℕ) :
    check_if_cluster_is_full_after_full_deployment s k = false ↔ wholeFeasible s k := by
  simp [check_if_cluster_is_full_after_full_deployment, wholeFeasible, not_lt, mul_comm]

theorem check_full_eq_true_iff (s : EnvState) (k : ℕ) :
    check_if_cluster_is_full_after_full_deployment s k = true ↔ ¬ wholeFeasible s k := by
  rw [← check_full_eq_false_iff]
  cases check_if_cluster_is_full_after_full_deployment s k <;> simp

theorem really_full_iff (s : EnvState) :
    check_if_cluster_is_really_full s = true ↔ ∀ i < s.num_clusters, ¬ wholeFeasible s i := by
  simp only [check_if_cluster_is_really_full, List.all_eq_true, List.mem_range]
  constructor
  · intro h i hi
    exact (check_full_eq_true_iff s i).mp (h i hi)
  · intro h i hi
    exact (check_full_eq_true_iff s i).mpr (h i hi)

/-- Concrete environment builder for the example states used below: identical
cpu and memory books (capacity cap, allocation alloc, free derived as
capacity minus allocation), tier 0 everywhere, a constant off-diagonal
latency of 10, the naive objective and the default weights. -/
def mkEnv (nc : ℕ) (cap alloc : ℕ → ℚ) (pend : DeploymentRequest)
    (running : List (ℚ × DeploymentRequest)) : EnvState where
  num_clusters := nc
  episode_length := 100
  min_replicas := 1
  max_replicas := 8
  reward_function := .naive
  latency_weight := 3/5
  cost_weight := 1/5
  gini_weight := 1/5
  cpu_capacity := cap
  memory_capacity := cap
  allocated_cpu := alloc
  allocated_memory := alloc
  free_cpu := fun n => cap n - alloc n
  free_memory := fun n => cap n - alloc n
  cluster_type := fun _ => 0
  latency_matrix := fun i j => if i = j then 0 else 10
  latency := fun _ => 5
  split_number_replicas := fun _ => 0
  running_requests := running
  current_time := 0
  dt := 1
  deployment_request := pend
  penalty := false
  episode_over := false
  current_step := 0
  accepted_requests := 0
  ep_accepted_requests := 0
  offered_requests := 0
  deploy_all := 0
  deploy_ffd := 0
  deploy_ffi := 0
  deploy_bf1b1 := 0
  avg_load_served := fun _ => 0
  avg_latency := []
  avg_cost := []
  avg_cpu_usage := []
  total_reward := 0

/-- The admitted whole-placement request of the C1 scenario: one replica of
one cpu / one memory unit, committed on cluster 0, departing at time 5. -/
def c1ReqA : DeploymentRequest :=
  { defaultRequest with num_replicas := 1, cpu_request := 1, memory_request := 1,
                        departure_time := 5, deployed_cluster := 0 }

/-- The pending request of the C1 scenario, with a different shape (one
replica of two cpu / two memory units). -/
def c1ReqB : DeploymentRequest :=
  { defaultRequest with num_replicas := 1, cpu_request := 2, memory_request := 2 }

/-- C1 scenario state: two clusters of capacity 8 with cluster 0 carrying the
admitted request c1ReqA on top of its initial allocation of 1/5 (so 6/5
allocated), the heap holding c1ReqA keyed by its departure time 5, and c1ReqB
pending. -/
def c1State : EnvState :=
  mkEnv 2 (fun _ => 8) (fun n => if n = 0 then 6/5 else 1/5) c1ReqB [(5, c1ReqA)]

/-- The admitted request of the C2 scenario (one replica of one cpu / one
memory unit on cluster 0). -/
def c2ReqA : DeploymentRequest :=
  { defaultRequest with num_replicas := 1, cpu_request := 1, memory_request := 1,
                        departure_time := 3, deployed_cluster := 0 }

/-- The pending request of the C2 scenario (one replica of three cpu / three
memory units, larger than what the departing request committed). -/
def c2ReqB : DeploymentRequest :=
  { defaultRequest with num_replicas := 1, cpu_request := 3, memory_request := 3 }

/-- C2 scenario state: cluster 0 of capacity 8 holds 13/10 allocated cpu
(initial 3/10 plus the admitted request's 1), the heap holds c2ReqA, and the
larger c2ReqB is pending. -/
def c2State : EnvState :=
  mkEnv 2 (fun _ => 8) (fun n => if n = 0 then 13/10 else 3/10) c2ReqB [(3, c2ReqA)]

/-- C1: processing a departure does not reverse the departing request's
contribution.  dequeue_request subtracts the pending request's demand
(self.deployment_request, here c1ReqB: 2 cpu) instead of the departing
request's committed demand (c1ReqA: 1 cpu), so cluster 0 ends at
6/5 - 2 = -4/5 rather than at its pre-admission 6/5 - 1 = 1/5. -/
theorem C1_dequeue_releases_pending_not_departing :
    (dequeue_request c1State).allocated_cpu 0
        = c1State.allocated_cpu 0 - (c1ReqB.num_replicas : ℚ) * c1ReqB.cpu_request ∧
    (dequeue_request c1State).allocated_cpu 0
        ≠ c1State.allocated_cpu 0 - (c1ReqA.num_replicas : ℚ) * c1ReqA.cpu_request := by
  constructor <;>
    norm_num [dequeue_request, c1State, mkEnv, c1ReqA, c1ReqB, defaultRequest,
      decrease_latency, Function.update]

/-- C2: the capacity invariant 0 ≤ allocatedCpu is violated by a drained
departure.  Because dequeue_request releases the pending request's demand (3
cpu) instead of the departing request's (1 cpu), cluster 0's allocated cpu
drops from 13/10 to -17/10. -/
theorem C2_allocation_becomes_negative_on_departure :
    (dequeue_request c2State).allocated_cpu 0 < 0 := by
  norm_num [dequeue_request, c2State, mkEnv, c2ReqA, c2ReqB, defaultRequest,
    decrease_latency, Function.update]

/-- The pending request of the C3 scenario: two replicas of one cpu / one
memory unit each. -/
def c3Req : DeploymentRequest :=
  { defaultRequest with num_replicas := 2, cpu_request := 1, memory_request := 1 }

/-- C3 scenario state: two clusters of capacity 2, cluster 0 at allocation 1
and cluster 1 at 3/2, so the BF1B1 heuristic can tentatively place one
replica on cluster 0 (free 1) but the split then fails the 95 percent check
(1 + 1 = 2 exceeds 19/10). -/
def c3State : EnvState :=
  mkEnv 2 (fun _ => 2) (fun n => if n = 0 then 1 else 3/2) c3Req []

/-- C3: a penalized BF1B1 step does not leave the fleet state unchanged.  The
heuristic mutates the environment's free_cpu / free_memory in place before
the validation runs, so after the step is blocked with a penalty the free
views no longer satisfy free = capacity - allocated: cluster 0 keeps its
allocation (1) but shows free cpu 0 instead of 2 - 1 = 1. -/
theorem C3_penalized_split_mutates_free_resources :
    (take_action c3State (c3State.num_clusters + BF1B1)).penalty = true ∧
    (take_action c3State (c3State.num_clusters + BF1B1)).allocated_cpu 0
        = c3State.allocated_cpu 0 ∧
    (take_action c3State (c3State.num_clusters + BF1B1)).free_cpu 0 = 0 ∧
    (take_action c3State (c3State.num_clusters + BF1B1)).free_cpu 0
      ≠ (take_action c3State (c3State.num_clusters + BF1B1)).cpu_capacity 0
        - (take_action c3State (c3State.num_clusters + BF1B1)).allocated_cpu 0 := by
  refine ⟨?_, ?_, ?_, ?_⟩ <;>
    norm_num [take_action, stepBump, bf1b1Branch, best_fit_heuristic_one_by_one,
      bf1b1Go, bf1b1Choose, sortAscBy, insertAsc,
      check_if_clusters_are_full_after_split_deployment,
      c3State, c3Req, mkEnv, defaultRequest, Function.update,
      FFD, FFI, BF1B1, NUM_SPREADING_ACTIONS, List.range_succ]

/-- A latency-matrix mutation of the environment: increase_latency n factor
or decrease_latency n factor.  These two functions and the __init__/reset
redraw are the only writers of latency_matrix in the source. -/
inductive LatOp where
  | inc (n : ℕ) (factor : ℚ)
  | dec (n : ℕ) (factor : ℚ)

/-- Effect of one LatOp on the latency matrix. -/
def applyLatOp (nc : ℕ) (M : ℕ → ℕ → ℚ) : LatOp → (ℕ → ℕ → ℚ)
  | .inc n factor => updateLatencyMatrix nc n (fun x => x * factor) M
  | .dec n factor => updateLatencyMatrix nc n (fun x => x / factor) M

/-- Effect of a sequence of LatOps on the latency matrix. -/
def applyLatOps (nc : ℕ) (M : ℕ → ℕ → ℚ) (ops : List LatOp) : ℕ → ℕ → ℚ :=
  ops.foldl (applyLatOp nc) M

theorem increase_latency_matrix_eq (s : EnvState) (n : ℕ) (factor : ℚ) :
    (increase_latency s n factor).latency_matrix
      = applyLatOp s.num_clusters s.latency_matrix (.inc n factor) := rfl

theorem decrease_latency_matrix_eq (s : EnvState) (n : ℕ) (factor : ℚ) :
    (decrease_latency s n factor).latency_matrix
      = applyLatOp s.num_clusters s.latency_matrix (.dec n factor) := rfl

/-- The latency-matrix invariant that does hold in the source: every entry of
the top-left num_clusters block lies in [0, 1000] and the diagonal is 0. -/
def LatInv (nc : ℕ) (M : ℕ → ℕ → ℚ) : Prop :=
  ∀ i < nc, ∀ j < nc, 0 ≤ M i j ∧ M i j ≤ 1000 ∧ (i = j → M i j = 0)

theorem clampLat_bounds (x : ℚ) : 1 ≤ clampLat x ∧ clampLat x ≤ 1000 := by
  unfold clampLat MIN_DELAY MAX_DELAY
  constructor
  · exact le_max_right _ _
  · exact max_le (min_le_right _ _) (by norm_num)

theorem updateLatencyMatrix_preserves (nc n : ℕ) (f : ℚ → ℚ) (M : ℕ → ℕ → ℚ)
    (h : LatInv nc M) : LatInv nc (updateLatencyMatrix nc n f M) := by
  intro i hi j hj
  have hM := h i hi j hj
  by_cases hin : i = n
  · by_cases hjn : j = n
    · have hv : updateLatencyMatrix nc n f M i j = 0 := by
        unfold updateLatencyMatrix; rw [if_pos hin, if_pos hjn]
      rw [hv]
      exact ⟨le_refl 0, by norm_num, fun _ => rfl⟩
    · have hb := clampLat_bounds (f (M n j))
      have hv : updateLatencyMatrix nc n f M i j = clampLat (f (M n j)) := by
        unfold updateLatencyMatrix; rw [if_pos hin, if_neg hjn, if_pos hj]
      rw [hv]
      exact ⟨le_trans (by norm_num) hb.1, hb.2, fun hij => absurd (hij ▸ hin) hjn⟩
  · by_cases hjn : j = n
    · have hb := clampLat_bounds (f (M n i))
      have hv : updateLatencyMatrix nc n f M i j = clampLat (f (M n i)) := by
        unfold updateLatencyMatrix
        rw [if_neg hin, if_pos (show j = n ∧ i < nc from ⟨hjn, hi⟩)]
      rw [hv]
      exact ⟨le_trans (by norm_num) hb.1, hb.2, fun hij => absurd (hij.trans hjn) hin⟩
    · have hv : updateLatencyMatrix nc n f M i j = M i j := by
        unfold updateLatencyMatrix
        rw [if_neg hin, if_neg (show ¬(j = n ∧ i < nc) from fun hc => hjn hc.1)]
      rw [hv]
      exact hM

/-- Preservation of LatInv along any sequence of latency mutations. -/
theorem applyLatOps_preserves (nc : ℕ) (ops : List LatOp) :
    ∀ M : ℕ → ℕ → ℚ, LatInv nc M → LatInv nc (applyLatOps nc M ops) := by
  induction ops with
  | nil => intro M h; exact h
  | cons op rest ih =>
    intro M h
    refine ih (applyLatOp nc M op) ?_
    cases op with
    | inc n factor => exact updateLatencyMatrix_preserves nc n (fun x => x * factor) M h
    | dec n factor => exact updateLatencyMatrix_preserves nc n (fun x => x / factor) M h

/-- Admissible draw stream of the __init__/reset latency loop: every ordered
off-diagonal pair gets an independent value from integers(1, 1000), hence in
[1, 999]. -/
def LatDrawAdmissible (draw : ℕ → ℕ → ℚ) : Prop :=
  ∀ i j, i ≠ j → 1 ≤ draw i j ∧ draw i j ≤ 999

theorem initLatencyMatrix_inv (nc : ℕ) (draw : ℕ → ℕ → ℚ)
    (hdraw : LatDrawAdmissible draw) : LatInv nc (initLatencyMatrix nc draw) := by
  intro i _ j _
  unfold initLatencyMatrix
  by_cases hij : i = j
  · simp [hij]
  · have hd := hdraw i j hij
    simp only [if_neg hij]
    exact ⟨le_trans (by norm_num) hd.1, le_trans hd.2 (by norm_num), fun hc => absurd hc hij⟩

/-- A concrete admissible draw stream producing an asymmetric initial matrix:
row 0 draws 5, every other row draws 7. -/
def c4draw : ℕ → ℕ → ℚ := fun i _ => if i = 0 then 5 else 7

/-- C4 counterexample: the initial latency matrix produced by the __init__ /
reset double loop from an admissible draw stream is not symmetric — entry
(0, 1) is 5 while entry (1, 0) is 7 — because the two ordered off-diagonal
pairs are drawn independently rather than mirrored. -/
theorem C4_init_matrix_not_symmetric :
    LatDrawAdmissible c4draw ∧
    initLatencyMatrix 2 c4draw 0 1 = 5 ∧
    initLatencyMatrix 2 c4draw 1 0 = 7 ∧
    initLatencyMatrix 2 c4draw 0 1 ≠ initLatencyMatrix 2 c4draw 1 0 := by
  refine ⟨?_, ?_, ?_, ?_⟩
  · intro i j _
    by_cases h : i = 0 <;> simp [c4draw, h] <;> norm_num
  all_goals norm_num [initLatencyMatrix, c4draw]

/-- C4 (amended): at every point of an episode — immediately after the
__init__/reset redraw and after any sequence of increase_latency /
decrease_latency mutations — every latency-matrix entry lies in [0, 1000]
and the diagonal is exactly 0; symmetry of the matrix is not guaranteed
(the initial draws are independent per ordered pair). -/
theorem C4_latency_bounds_and_zero_diagonal (nc : ℕ) (draw : ℕ → ℕ → ℚ)
    (ops : List LatOp) (hdraw : LatDrawAdmissible draw) :
    LatInv nc (applyLatOps nc (initLatencyMatrix nc draw) ops) :=
  applyLatOps_preserves nc ops _ (initLatencyMatrix_inv nc draw hdraw)

/-- Witness for the amended C4 theorem at a concrete draw stream and a
concrete mutation sequence. -/
theorem C4_latency_bounds_witness :
    LatInv 2 (applyLatOps 2 (initLatencyMatrix 2 (fun _ _ => 5))
      [LatOp.inc 0 (23/20), LatOp.dec 1 (11/10)]) :=
  C4_latency_bounds_and_zero_diagonal 2 (fun _ _ => 5)
    [LatOp.inc 0 (23/20), LatOp.dec 1 (11/10)]
    (fun _ _ _ => by norm_num)

/-- Total number of replicas placed by a distribution over the nc clusters. -/
def sumDist (nc : ℕ) (dist : ℕ → ℤ) : ℤ := ∑ c ∈ Finset.range nc, dist c

theorem sumDist_update (nc n : ℕ) (dist : ℕ → ℤ) (k : ℤ) (hn : n < nc) :
    sumDist nc (Function.update dist n (dist n + k)) = sumDist nc dist + k := by
  unfold sumDist
  have hmem : n ∈ Finset.range nc := Finset.mem_range.mpr hn
  rw [Finset.sum_update_of_mem hmem, ← Finset.add_sum_erase _ dist hmem, Finset.erase_eq]
  ring

theorem mem_insertDesc (key : ℕ → ℚ) (a x : ℕ) (l : List ℕ)
    (h : x ∈ insertDesc key a l) : x = a ∨ x ∈ l := by
  induction l with
  | nil => simpa [insertDesc] using h
  | cons b bs ih =>
    unfold insertDesc at h
    by_cases hc : key a ≤ key b
    · rw [if_pos hc] at h
      rcases List.mem_cons.mp h with hb | htl
      · exact Or.inr (List.mem_cons.mpr (Or.inl hb))
      · rcases ih htl with h1 | h2
        · exact Or.inl h1
        · exact Or.inr (List.mem_cons.mpr (Or.inr h2))
    · rw [if_neg hc] at h
      rcases List.mem_cons.mp h with hb | htl
      · exact Or.inl hb
      · exact Or.inr htl

theorem mem_insertAsc (key : ℕ → ℚ) (a x : ℕ) (l : List ℕ)
    (h : x ∈ insertAsc key a l) : x = a ∨ x ∈ l := by
  induction l with
  | nil => simpa [insertAsc] using h
  | cons b bs ih =>
    unfold insertAsc at h
    by_cases hc : key b ≤ key a
    · rw [if_pos hc] at h
      rcases List.mem_cons.mp h with hb | htl
      · exact Or.inr (List.mem_cons.mpr (Or.inl hb))
      · rcases ih htl with h1 | h2
        · exact Or.inl h1
        · exact Or.inr (List.mem_cons.mpr (Or.inr h2))
    · rw [if_neg hc] at h
      rcases List.mem_cons.mp h with hb | htl
      · exact Or.inl hb
      · exact Or.inr htl

theorem mem_sortDescBy (key : ℕ → ℚ) (l : List ℕ) (x : ℕ)
    (h : x ∈ sortDescBy key l) : x ∈ l := by
  unfold sortDescBy at h
  suffices haux : ∀ acc, x ∈ l.foldl (fun acc a => insertDesc key a acc) acc → x ∈ acc ∨ x ∈ l by
    rcases haux [] h with h1 | h2
    · cases h1
    · exact h2
  clear h
  induction l with
  | nil => intro acc h; exact Or.inl h
  | cons b bs ih =>
    intro acc h
    rcases ih (insertDesc key b acc) h with h1 | h2
    · rcases mem_insertDesc key b x acc h1 with hb | hacc
      · exact Or.inr (List.mem_cons.mpr (Or.inl hb))
      · exact Or.inl hacc
    · exact Or.inr (List.mem_cons.mpr (Or.inr h2))

theorem mem_sortAscBy (key : ℕ → ℚ) (l : List ℕ) (x : ℕ)
    (h : x ∈ sortAscBy key l) : x ∈ l := by
  unfold sortAscBy at h
  suffices haux : ∀ acc, x ∈ l.foldl (fun acc a => insertAsc key a acc) acc → x ∈ acc ∨ x ∈ l by
    rcases haux [] h with h1 | h2
    · cases h1
    · exact h2
  clear h
  induction l with
  | nil => intro acc h; exact Or.inl h
  | cons b bs ih =>
    intro acc h
    rcases ih (insertAsc key b acc) h with h1 | h2
    · rcases mem_insertAsc key b x acc h1 with hb | hacc
      · exact Or.inr (List.mem_cons.mpr (Or.inl hb))
      · exact Or.inl hacc
    · exact Or.inr (List.mem_cons.mpr (Or.inr h2))

theorem ffdLoop1_invariant (cpu_req mem_req : ℚ) (free_cpu free_mem : ℕ → ℚ) (mf : ℤ)
    (nc : ℕ) :
    ∀ (l : List ℕ) (dist : ℕ → ℤ) (rem : ℤ), (∀ n ∈ l, n < nc) → 0 ≤ rem →
      sumDist nc (ffdLoop1 cpu_req mem_req free_cpu free_mem mf l dist rem).1
          + (ffdLoop1 cpu_req mem_req free_cpu free_mem mf l dist rem).2
        = sumDist nc dist + rem ∧
      0 ≤ (ffdLoop1 cpu_req mem_req free_cpu free_mem mf l dist rem).2 := by
  intro l
  induction l with
  | nil => intro dist rem _ hrem; exact ⟨rfl, hrem⟩
  | cons n rest ih =>
    intro dist rem hl hrem
    have hn : n < nc := hl n (List.mem_cons.mpr (Or.inl rfl))
    have hrest : ∀ m ∈ rest, m < nc := fun m hm => hl m (List.mem_cons.mpr (Or.inr hm))
    unfold ffdLoop1
    by_cases h0 : rem = 0
    · rw [if_pos h0]; exact ⟨rfl, hrem⟩
    rw [if_neg h0]
    by_cases h1 : 0 < rem ∧ mf < rem ∧ cpu_req * (mf : ℚ) < free_cpu n ∧ mem_req * (mf : ℚ) < free_mem n
    · rw [if_pos h1]
      have hrem1 : 0 ≤ rem - mf := le_of_lt (sub_pos.mpr h1.2.1)
      have := ih (Function.update dist n (dist n + mf)) (rem - mf) hrest hrem1
      rw [sumDist_update nc n dist mf hn] at this
      exact ⟨by rw [this.1]; ring, this.2⟩
    rw [if_neg h1]
    by_cases h2 : 0 < rem ∧ cpu_req < free_cpu n ∧ mem_req < free_mem n
    · rw [if_pos h2]
      have hrem1 : 0 ≤ rem - 1 := by omega
      have := ih (Function.update dist n (dist n + 1)) (rem - 1) hrest hrem1
      rw [sumDist_update nc n dist 1 hn] at this
      exact ⟨by rw [this.1]; ring, this.2⟩
    · rw [if_neg h2]
      exact ih dist rem hrest hrem

theorem ffdLoop2_invariant (cpu_req mem_req : ℚ) (free_cpu free_mem : ℕ → ℚ) (nc : ℕ) :
    ∀ (l : List ℕ) (dist : ℕ → ℤ) (rem : ℤ), (∀ n ∈ l, n < nc) → 0 ≤ rem →
      sumDist nc (ffdLoop2 cpu_req mem_req free_cpu free_mem l dist rem).1
          + (ffdLoop2 cpu_req mem_req free_cpu free_mem l dist rem).2
        = sumDist nc dist + rem ∧
      0 ≤ (ffdLoop2 cpu_req mem_req free_cpu free_mem l dist rem).2 := by
  intro l
  induction l with
  | nil => intro dist rem _ hrem; exact ⟨rfl, hrem⟩
  | cons n rest ih =>
    intro dist rem hl hrem
    have hn : n < nc := hl n (List.mem_cons.mpr (Or.inl rfl))
    have hrest : ∀ m ∈ rest, m < nc := fun m hm => hl m (List.mem_cons.mpr (Or.inr hm))
    unfold ffdLoop2
    by_cases h0 : rem = 0
    · rw [if_pos h0]; exact ⟨rfl, hrem⟩
    rw [if_neg h0]
    by_cases h2 : cpu_req < free_cpu n ∧ mem_req < free_mem n
    · rw [if_pos h2]
      have hrem1 : 0 ≤ rem - 1 := by omega
      have := ih (Function.update dist n (dist n + 1)) (rem - 1) hrest hrem1
      rw [sumDist_update nc n dist 1 hn] at this
      exact ⟨by rw [this.1]; ring, this.2⟩
    · rw [if_neg h2]
      exact ih dist rem hrest hrem

theorem sumDist_zero (nc : ℕ) : sumDist nc (fun _ => 0) = 0 := by
  simp [sumDist]

/-- Split conservation for first_fit_decreasing_heuristic: the distribution
never places more than num_replicas replicas. -/
theorem ffd_sum_le (num_replicas : ℕ) (cpu_req mem_req : ℚ) (nc : ℕ)
    (free_cpu free_mem : ℕ → ℚ) :
    sumDist nc (first_fit_decreasing_heuristic num_replicas cpu_req mem_req nc
      free_cpu free_mem).1 ≤ (num_replicas : ℤ) := by
  have key : ∀ (mf : ℤ) (order : List ℕ), (∀ n ∈ order, n < nc) →
      sumDist nc (ffdLoop2 cpu_req mem_req free_cpu free_mem (List.range nc)
        (ffdLoop1 cpu_req mem_req free_cpu free_mem mf order (fun _ => 0) (num_replicas : ℤ)).1
        (ffdLoop1 cpu_req mem_req free_cpu free_mem mf order (fun _ => 0) (num_replicas : ℤ)).2).1
      ≤ (num_replicas : ℤ) := by
    intro mf order horder
    have h1 := ffdLoop1_invariant cpu_req mem_req free_cpu free_mem mf nc order
      (fun _ => 0) (num_replicas : ℤ) horder (Int.ofNat_nonneg num_replicas)
    have h2 := ffdLoop2_invariant cpu_req mem_req free_cpu free_mem nc (List.range nc)
      (ffdLoop1 cpu_req mem_req free_cpu free_mem mf order (fun _ => 0) (num_replicas : ℤ)).1
      (ffdLoop1 cpu_req mem_req free_cpu free_mem mf order (fun _ => 0) (num_replicas : ℤ)).2
      (fun n hn => List.mem_range.mp hn) h1.2
    rw [h1.1, sumDist_zero, zero_add] at h2
    omega
  exact key _ _ (fun n hn => List.mem_range.mp (mem_sortDescBy free_cpu (List.range nc) n hn))

theorem bf1b1Choose_mem (cpu_req mem_req : ℚ) (free_cpu free_mem : ℕ → ℚ) :
    ∀ (l : List ℕ) (best : Option (ℕ × ℚ)) (b : ℕ) (sp : ℚ),
      bf1b1Choose cpu_req mem_req free_cpu free_mem l best = some (b, sp) →
      b ∈ l ∨ (∃ sp0, best = some (b, sp0)) := by
  intro l
  induction l with
  | nil =>
    intro best b sp h
    exact Or.inr ⟨sp, by simpa [bf1b1Choose] using h⟩
  | cons i rest ih =>
    intro best b sp h
    unfold bf1b1Choose at h
    by_cases hfit : cpu_req ≤ free_cpu i ∧ mem_req ≤ free_mem i
    · rw [if_pos hfit] at h
      cases best with
      | none =>
        dsimp only at h
        rcases ih _ b sp h with h1 | ⟨sp0, h2⟩
        · exact Or.inl (List.mem_cons.mpr (Or.inr h1))
        · have hib : i = b := congrArg Prod.fst (Option.some.inj h2)
          exact Or.inl (List.mem_cons.mpr (Or.inl hib.symm))
      | some p =>
        obtain ⟨pb, ps⟩ := p
        dsimp only at h
        by_cases hsp : free_cpu i - cpu_req + (free_mem i - mem_req) < ps
        · rw [if_pos hsp] at h
          rcases ih _ b sp h with h1 | ⟨sp0, h2⟩
          · exact Or.inl (List.mem_cons.mpr (Or.inr h1))
          · have hib : i = b := congrArg Prod.fst (Option.some.inj h2)
            exact Or.inl (List.mem_cons.mpr (Or.inl hib.symm))
        · rw [if_neg hsp] at h
          rcases ih _ b sp h with h1 | ⟨sp0, h2⟩
          · exact Or.inl (List.mem_cons.mpr (Or.inr h1))
          · have hib : pb = b := congrArg Prod.fst (Option.some.inj h2)
            exact Or.inr ⟨ps, by rw [hib]⟩
    · rw [if_neg hfit] at h
      rcases ih _ b sp h with h1 | h2
      · exact Or.inl (List.mem_cons.mpr (Or.inr h1))
      · exact Or.inr h2

theorem sumDist_update_le (nc n : ℕ) (dist : ℕ → ℤ) :
    sumDist nc (Function.update dist n (dist n + 1)) ≤ sumDist nc dist + 1 := by
  by_cases hn : n < nc
  · rw [sumDist_update nc n dist 1 hn]
  · have heq : sumDist nc (Function.update dist n (dist n + 1)) = sumDist nc dist := by
      unfold sumDist
      refine Finset.sum_congr rfl ?_
      intro c hc
      have hcn : c ≠ n := fun hcn => hn (hcn ▸ Finset.mem_range.mp hc)
      simp [Function.update_apply, hcn]
    rw [heq]
    omega

theorem bf1b1Go_sum_le (cpu_req mem_req : ℚ) (nc : ℕ) :
    ∀ (k : ℕ) (dist : ℕ → ℤ) (fc fm : ℕ → ℚ),
      sumDist nc (bf1b1Go cpu_req mem_req nc k dist fc fm).1 ≤ sumDist nc dist + (k : ℤ) := by
  intro k
  induction k with
  | zero => intro dist fc fm; simp [bf1b1Go]
  | succ k ih =>
    intro dist fc fm
    unfold bf1b1Go
    cases hch : bf1b1Choose cpu_req mem_req fc fm (sortAscBy fc (List.range nc)) none with
    | none =>
      dsimp only
      have := ih dist fc fm
      omega
    | some p =>
      obtain ⟨b, sp⟩ := p
      dsimp only
      have := ih (Function.update dist b (dist b + 1))
        (Function.update fc b (fc b - cpu_req)) (Function.update fm b (fm b - mem_req))
      have hb := sumDist_update_le nc b dist
      omega

/-- Split conservation for best_fit_heuristic_one_by_one: the distribution
never places more than num_replicas replicas. -/
theorem bf1b1_sum_le (num_replicas : ℕ) (cpu_req mem_req : ℚ) (nc : ℕ)
    (free_cpu free_mem : ℕ → ℚ) :
    sumDist nc (best_fit_heuristic_one_by_one num_replicas cpu_req mem_req nc
      free_cpu free_mem).1 ≤ (num_replicas : ℤ) := by
  unfold best_fit_heuristic_one_by_one
  have := bf1b1Go_sum_le cpu_req mem_req nc num_replicas (fun _ => 0) free_cpu free_mem
  rw [sumDist_zero] at this
  omega

/-- Free cpu view of the C5 counterexample fleet: cluster 0 has 3/2 free,
cluster 1 has 3/5 free. -/
def c5free : ℕ → ℚ := fun n => if n = 0 then 3/2 else 3/5

/-- Free memory view of the C5 counterexample fleet: plenty everywhere. -/
def c5mem : ℕ → ℚ := fun _ => 100

/-- C5 counterexample: with 2 replicas of demand (1 cpu, 1/10 mem) and two
clusters whose aggregate free capacity (3/2 + 3/5 cpu, 200 mem) is enough to
host both replicas, best_fit_heuristic_one_by_one still places only one
replica: neither cluster alone can host the second replica, so equality in
the split-conservation property fails even though the fleet has enough
aggregate free capacity. -/
theorem C5_aggregate_capacity_without_equality :
    (0 : ℚ) < 1 ∧ (0 : ℚ) < 1/10 ∧
    (2 : ℚ) * 1 ≤ c5free 0 + c5free 1 ∧
    (2 : ℚ) * (1/10) ≤ c5mem 0 + c5mem 1 ∧
    sumDist 2 (best_fit_heuristic_one_by_one 2 1 (1/10) 2 c5free c5mem).1 = 1 := by
  refine ⟨by norm_num, by norm_num, by norm_num [c5free], by norm_num [c5mem], ?_⟩
  norm_num [best_fit_heuristic_one_by_one, bf1b1Go, bf1b1Choose, sortAscBy, insertAsc,
    c5free, c5mem, Function.update, sumDist, Finset.sum_range_succ, List.range_succ]

/-- C5 (amended): for every call of a split heuristic with at least two
replicas and positive per-replica demands, the returned distribution places
at most replicaCount replicas; equality when the fleet has enough aggregate
free capacity does not hold in general. -/
theorem C5_split_conservation (num_replicas : ℕ) (cpu_req mem_req : ℚ) (nc : ℕ)
    (free_cpu free_mem free_cpu2 free_mem2 : ℕ → ℚ)
    (_h2 : 2 ≤ num_replicas) (_hc : 0 < cpu_req) (_hm : 0 < mem_req) :
    sumDist nc (first_fit_decreasing_heuristic num_replicas cpu_req mem_req nc
      free_cpu free_mem).1 ≤ (num_replicas : ℤ) ∧
    sumDist nc (best_fit_heuristic_one_by_one num_replicas cpu_req mem_req nc
      free_cpu2 free_mem2).1 ≤ (num_replicas : ℤ) :=
  ⟨ffd_sum_le num_replicas cpu_req mem_req nc free_cpu free_mem,
   bf1b1_sum_le num_replicas cpu_req mem_req nc free_cpu2 free_mem2⟩

/-- Witness for the amended C5 theorem at a concrete fleet. -/
theorem C5_split_conservation_witness :
    sumDist 2 (first_fit_decreasing_heuristic 3 1 1 2 c5mem c5mem).1 ≤ (3 : ℤ) ∧
    sumDist 2 (best_fit_heuristic_one_by_one 3 1 1 2 c5mem c5mem).1 ≤ (3 : ℤ) :=
  C5_split_conservation 3 1 1 2 c5mem c5mem c5mem c5mem (by norm_num) (by norm_num)
    (by norm_num)

theorem check_full_stepBump (s : EnvState) (k : ℕ) :
    check_if_cluster_is_full_after_full_deployment (stepBump s) k
      = check_if_cluster_is_full_after_full_deployment s k := rfl

theorem take_action_whole (s : EnvState) (k : ℕ) (hk : k < s.num_clusters) :
    take_action s k = wholeBranch (stepBump s) k := by
  simp only [take_action]
  rw [if_pos (show k < (stepBump s).num_clusters from hk)]

theorem take_action_whole_penalty (s : EnvState) (k : ℕ) (hk : k < s.num_clusters) :
    (take_action s k).penalty = check_if_cluster_is_full_after_full_deployment s k := by
  rw [take_action_whole s k hk]
  unfold wholeBranch
  rw [check_full_stepBump]
  cases hfull : check_if_cluster_is_full_after_full_deployment s k with
  | true => rw [if_pos rfl]
  | false =>
    rw [if_neg (by simp)]
    rfl

theorem action_masks_getD_lt (s : EnvState) (k : ℕ) (hk : k < s.num_clusters) :
    (action_masks s).getD k false
      = !check_if_cluster_is_full_after_full_deployment s k := by
  unfold action_masks
  rw [List.getD_eq_getElem?_getD, List.getElem?_append_left (by simpa using hk),
    List.getElem?_map, List.getElem?_range hk]
  rfl

/-- C6: a whole-placement action on cluster k is feasible — take_action does
not raise the penalty flag — exactly when committing the whole pending
request keeps cluster k at or below 95 percent of capacity in both
dimensions; the action mask is true at k exactly under the same condition,
and is always true at the three split-strategy indices and at reject. -/
theorem C6_whole_action_feasibility (s : EnvState) (k : ℕ) (hk : k < s.num_clusters) :
    ((take_action s k).penalty = false ↔ wholeFeasible s k) ∧
    ((action_masks s).getD k false = true ↔ wholeFeasible s k) ∧
    (∀ j, s.num_clusters ≤ j → j < s.num_clusters + NUM_SPREADING_ACTIONS + 1 →
      (action_masks s).getD j false = true) := by
  refine ⟨?_, ?_, ?_⟩
  · rw [take_action_whole_penalty s k hk]
    exact check_full_eq_false_iff s k
  · rw [action_masks_getD_lt s k hk, Bool.not_eq_true']
    exact check_full_eq_false_iff s k
  · intro j hj1 hj2
    unfold action_masks
    rw [List.getD_eq_getElem?_getD, List.getElem?_append_right (by simpa using hj1)]
    have hlen : ((List.range s.num_clusters).map
        fun i => !check_if_cluster_is_full_after_full_deployment s i).length
        = s.num_clusters := by simp
    rw [hlen]
    have h4 : j - s.num_clusters = 0 ∨ j - s.num_clusters = 1 ∨ j - s.num_clusters = 2
        ∨ j - s.num_clusters = 3 := by
      have := hj2
      unfold NUM_SPREADING_ACTIONS at this
      omega
    rcases h4 with h | h | h | h <;> rw [h] <;> rfl

/-- Concrete state for the C6 witness: one cluster of capacity 8 with 1/5
allocated, a one-replica unit request pending. -/
def c6State : EnvState := mkEnv 1 (fun _ => 8) (fun _ => 1/5) defaultRequest []

/-- Witness for C6 at cluster 0 of the concrete state. -/
theorem C6_whole_action_feasibility_witness :
    (take_action c6State 0).penalty = false ↔ wholeFeasible c6State 0 :=
  (C6_whole_action_feasibility c6State 0 (by norm_num [c6State, mkEnv])).1

/-- C7: under the naive objective the reward is 1 on an admitted step; on a
penalized step it is 1 when every cluster fails the whole-placement
feasibility check for the pending request, and -1 when some cluster could
still host it whole. -/
theorem C7_naive_reward (s : EnvState) (h : s.reward_function = RewardFn.naive) :
    (s.penalty = false → get_reward s = 1) ∧
    (s.penalty = true →
      ((∀ i < s.num_clusters, ¬ wholeFeasible s i) → get_reward s = 1) ∧
      ((∃ i, i < s.num_clusters ∧ wholeFeasible s i) → get_reward s = -1)) := by
  refine ⟨?_, ?_⟩
  · intro hp
    simp [get_reward, h, hp]
  · intro hp
    constructor
    · intro hall
      have hfull : check_if_cluster_is_really_full s = true := (really_full_iff s).mpr hall
      simp [get_reward, h, hp, hfull]
    · rintro ⟨i, hi, hfeas⟩
      have hfull : check_if_cluster_is_really_full s = false := by
        cases hb : check_if_cluster_is_really_full s with
        | false => rfl
        | true => exact absurd hfeas ((really_full_iff s).mp hb i hi)
      simp [get_reward, h, hp, hfull]

/-- Concrete state for the C7 witness: naive objective, no penalty. -/
def c7State : EnvState := mkEnv 2 (fun _ => 8) (fun _ => 1/5) defaultRequest []

/-- Witness for C7: an admitted step under the naive objective earns 1. -/
theorem C7_naive_reward_witness : get_reward c7State = 1 :=
  (C7_naive_reward c7State rfl).1 rfl

/-- Catalog for the C8 counterexample: a single blueprint. -/
def c8catalog : List DeploymentRequest := [defaultRequest]

/-- C8 counterexample: with min_replicas 1 and max_replicas 8, no admissible
replica draw — integers(1, 8) yields values in [1, 7] because the high bound
is exclusive — lets deployment_generator produce 8 replicas, so maxReplicas
itself is never a possible outcome when the two bounds differ. -/
theorem C8_max_replicas_never_drawn :
    ¬ ∃ rDraw : ℕ, (1 ≤ rDraw ∧ rDraw < 8) ∧
      (deployment_generator c8catalog 1 rDraw 1 8).num_replicas = 8 := by
  rintro ⟨r, ⟨h1, h2⟩, h3⟩
  have hr : (deployment_generator c8catalog 1 r 1 8).num_replicas = r := by
    simp [deployment_generator]
  rw [hr] at h3
  omega

/-- C8 (amended): when minReplicas is strictly below maxReplicas the replica
count equals the draw of integers(minReplicas, maxReplicas), hence is
uniform over the integers from minReplicas to maxReplicas - 1 inclusive and
never reaches maxReplicas itself; when the two bounds are equal the replica
count is fixed to that value. -/
theorem C8_replica_sampling (catalog : List DeploymentRequest) (nDraw rDraw minR maxR : ℕ)
    (hlt : minR < maxR) (hdraw : minR ≤ rDraw ∧ rDraw < maxR) :
    (deployment_generator catalog nDraw rDraw minR maxR).num_replicas = rDraw ∧
    minR ≤ (deployment_generator catalog nDraw rDraw minR maxR).num_replicas ∧
    (deployment_generator catalog nDraw rDraw minR maxR).num_replicas < maxR ∧
    (∀ m : ℕ, (deployment_generator catalog nDraw rDraw m m).num_replicas = m) := by
  have hne : minR ≠ maxR := Nat.ne_of_lt hlt
  have hr : (deployment_generator catalog nDraw rDraw minR maxR).num_replicas = rDraw := by
    simp [deployment_generator, hne]
  refine ⟨hr, ?_, ?_, ?_⟩
  · rw [hr]; exact hdraw.1
  · rw [hr]; exact hdraw.2
  · intro m
    simp [deployment_generator]

/-- Witness for the amended C8 theorem at concrete bounds and draw. -/
theorem C8_replica_sampling_witness :
    (deployment_generator c8catalog 0 3 1 8).num_replicas = 3 :=
  (C8_replica_sampling c8catalog 0 3 1 8 (by norm_num) ⟨by norm_num, by norm_num⟩).1

/-- C10: reset does not touch the departure timeline or the simulated clock:
requests admitted before a reset remain enqueued afterwards with the clock
unchanged, so a departure drained by a later next_request call can still
mutate the freshly re-initialized allocations. -/
theorem C10_reset_preserves_timeline_and_clock (s : EnvState) (tierDraw : ℕ → ℕ)
    (latDraw : ℕ → ℕ → ℚ) (aCpu aMem : ℕ → ℚ) :
    (reset s tierDraw latDraw aCpu aMem).running_requests = s.running_requests ∧
    (reset s tierDraw latDraw aCpu aMem).current_time = s.current_time :=
  ⟨rfl, rfl⟩

/-- Forget the FFD / FFI usage counters of a state (used to compare the FFD
and FFI branches, which differ only in these counters). -/
def stripSplitCounters (s : EnvState) : EnvState :=
  { s with deploy_ffd := 0, deploy_ffi := 0 }

/-- Overwrite the FFD / FFI counters of the accumulator of the split commit
loop. -/
def liftCounters (a b : ℕ) (p : EnvState × ℚ × ℚ × ℚ) : EnvState × ℚ × ℚ × ℚ :=
  ({ p.1 with deploy_ffd := a, deploy_ffi := b }, p.2)

theorem splitCommitStep_liftCounters (div : ℕ → ℤ) (cr mr : ℚ) (a b : ℕ)
    (p : EnvState × ℚ × ℚ × ℚ) (d : ℕ) :
    splitCommitStep div cr mr (liftCounters a b p) d
      = liftCounters a b (splitCommitStep div cr mr p d) := rfl

theorem foldl_splitCommitStep_liftCounters (div : ℕ → ℤ) (cr mr : ℚ) (a b : ℕ) :
    ∀ (l : List ℕ) (p : EnvState × ℚ × ℚ × ℚ),
      l.foldl (splitCommitStep div cr mr) (liftCounters a b p)
        = liftCounters a b (l.foldl (splitCommitStep div cr mr) p) := by
  intro l
  induction l with
  | nil => intro p; rfl
  | cons d rest ih =>
    intro p
    rw [List.foldl_cons, List.foldl_cons, splitCommitStep_liftCounters]
    exact ih _

/-- The split commit path neither reads nor writes the FFD / FFI usage
counters: setting them beforehand is the same as setting them afterwards. -/
theorem splitCommit_counters (s : EnvState) (div : ℕ → ℤ) (a b : ℕ) :
    splitCommit { s with deploy_ffd := a, deploy_ffi := b } div
      = { splitCommit s div with deploy_ffd := a, deploy_ffi := b } := by
  unfold splitCommit
  dsimp only
  rw [show ({ s with deploy_ffd := a, deploy_ffi := b }, (0 : ℚ), (0 : ℚ), (0 : ℚ))
      = liftCounters a b (s, 0, 0, 0) from rfl]
  rw [foldl_splitCommitStep_liftCounters]
  rfl

/-- Normal form of splitCommit with respect to the FFD / FFI counters. -/
theorem splitCommit_counters_eta (s : EnvState) (div : ℕ → ℤ) :
    splitCommit s div
      = { splitCommit (stripSplitCounters s) div with
            deploy_ffd := s.deploy_ffd, deploy_ffi := s.deploy_ffi } := by
  conv_lhs => rw [show s = { stripSplitCounters s with
    deploy_ffd := s.deploy_ffd, deploy_ffi := s.deploy_ffi } from rfl]
  exact splitCommit_counters (stripSplitCounters s) div s.deploy_ffd s.deploy_ffi

/-- Core of C9 at the branch level: the FFD and FFI branches coincide on
everything but their usage counters, each leaves the other's counter alone,
and the two counters advance in lockstep. -/
theorem ffd_ffi_branches_equal (s : EnvState) :
    stripSplitCounters (ffdBranch s) = stripSplitCounters (ffiBranch s) ∧
    (ffdBranch s).deploy_ffi = s.deploy_ffi ∧
    (ffiBranch s).deploy_ffd = s.deploy_ffd ∧
    (ffdBranch s).deploy_ffd + s.deploy_ffi = (ffiBranch s).deploy_ffi + s.deploy_ffd := by
  unfold ffdBranch ffiBranch
  by_cases h1 : s.deployment_request.num_replicas = 1
  · rw [if_pos h1, if_pos h1]
    refine ⟨rfl, rfl, rfl, ?_⟩
    show s.deploy_ffd + s.deploy_ffi = s.deploy_ffi + s.deploy_ffd
    omega
  rw [if_neg h1, if_neg h1]
  dsimp only
  by_cases h2 : check_if_clusters_are_full_after_split_deployment
      { s with split_number_replicas := fun n => if n < s.num_clusters then
          (first_fit_decreasing_heuristic s.deployment_request.num_replicas
            s.deployment_request.cpu_request s.deployment_request.memory_request
            s.num_clusters s.free_cpu s.free_memory).2 n
        else s.split_number_replicas n }
      (first_fit_decreasing_heuristic s.deployment_request.num_replicas
        s.deployment_request.cpu_request s.deployment_request.memory_request
        s.num_clusters s.free_cpu s.free_memory).1 = true
  · rw [if_pos h2, if_pos h2]
    refine ⟨rfl, rfl, rfl, ?_⟩
    show s.deploy_ffd + s.deploy_ffi = s.deploy_ffi + s.deploy_ffd
    omega
  · rw [if_neg h2, if_neg h2]
    refine ⟨?_, ?_, ?_, ?_⟩
    · conv_lhs => rw [splitCommit_counters_eta]
      conv_rhs => rw [splitCommit_counters_eta]
      rfl
    · rw [splitCommit_counters_eta]
    · rw [splitCommit_counters_eta]
    · conv_lhs => rw [splitCommit_counters_eta]
      conv_rhs => rw [splitCommit_counters_eta]
      show s.deploy_ffd + 1 + s.deploy_ffi = s.deploy_ffi + 1 + s.deploy_ffd
      omega

theorem take_action_ffd (s : EnvState) :
    take_action s (s.num_clusters + FFD) = ffdBranch (stepBump s) := by
  simp only [take_action]
  rw [if_neg (show ¬(s.num_clusters + FFD < (stepBump s).num_clusters) by
    show ¬(s.num_clusters + FFD < s.num_clusters); unfold FFD; omega)]
  rw [if_pos (show s.num_clusters + FFD = (stepBump s).num_clusters + FFD from rfl)]

theorem take_action_ffi (s : EnvState) :
    take_action s (s.num_clusters + FFI) = ffiBranch (stepBump s) := by
  simp only [take_action]
  rw [if_neg (show ¬(s.num_clusters + FFI < (stepBump s).num_clusters) by
    show ¬(s.num_clusters + FFI < s.num_clusters); unfold FFI; omega)]
  rw [if_neg (show ¬(s.num_clusters + FFI = (stepBump s).num_clusters + FFD) by
    show ¬(s.num_clusters + FFI = s.num_clusters + FFD); unfold FFI FFD; omega)]
  rw [if_pos (show s.num_clusters + FFI = (stepBump s).num_clusters + FFI from rfl)]

/-- C9: the FFD action (index clusterCount + 0) and the FFI action (index
clusterCount + 1) are behaviorally equivalent: on any state they invoke the
same first_fit_decreasing_heuristic with the same arguments, produce the same
distribution, resource and latency mutations and the same penalty outcome,
and differ only in which of deploy_ffd / deploy_ffi is incremented. -/
theorem C9_ffd_ffi_equivalent (s : EnvState) :
    stripSplitCounters (take_action s (s.num_clusters + FFD))
      = stripSplitCounters (take_action s (s.num_clusters + FFI)) ∧
    (take_action s (s.num_clusters + FFD)).deploy_ffi = s.deploy_ffi ∧
    (take_action s (s.num_clusters + FFI)).deploy_ffd = s.deploy_ffd ∧
    (take_action s (s.num_clusters + FFD)).deploy_ffd + s.deploy_ffi
      = (take_action s (s.num_clusters + FFI)).deploy_ffi + s.deploy_ffd := by
  rw [take_action_ffd, take_action_ffi]
  exact ffd_ffi_branches_equal (stepBump s)

end KarmadaEnv
